import Mathlib

/-!
Shallow embedding of the study-session calendar automation program
(`main.py`): the free-time calculator `get_free_time` and the session
allocator `schedule_study_sessions`, together with proofs of the
specification's claims about them.

Modelling conventions:
* Timestamps are integers counting minutes; a timestamp `t` denotes the
  calendar day `t / 1440` at minute-of-day `t % 1440`.  The program's
  `replace(hour=h, minute=m)` on a day `d` becomes `d * 1440 + (h*60+m)`,
  and advancing `today` by one day adds `1` to the day number.
* `d0` is the day number of "today" (`datetime.datetime.now(tz)`); by
  convention day numbers are aligned so that `d % 7` is the Python
  weekday (`0` = Monday, `3` = Thursday, `4` = Friday).
* A fetched event is modelled after parsing: each of its `start`/`end`
  fields is `some` timestamp, or `none` when the field is absent
  (both the `dateTime` and `date` keys missing).  Timezone localization
  happens before our model begins; all timestamps are already local.
* The effectful `add_event` calls are modelled by collecting the emitted
  `SessionRequest`s into a list, in emission order.
-/

/-- The fixed subject list `SUBJECTS`: (name, color id), index = priority. -/
def SUBJECTS : List (String × Nat) :=
  [("Physics", 11), ("Calculus and Vectors", 7), ("English", 8), ("Data Management", 7)]

/-- `SESSION_DURATION = timedelta(minutes=90)`. -/
def SESSION_DURATION : Int := 90

/-- `DATA_MANAGEMENT_DURATION = timedelta(minutes=60)`. -/
def DATA_MANAGEMENT_DURATION : Int := 60

/-- A fetched calendar event after parsing: each bound is `some` local
timestamp or `none` when the corresponding field was absent. -/
structure GEvent where
  start : Option Int
  stop : Option Int
deriving DecidableEq, Repr

/-- `today.replace(hour=h, minute=m)` for day number `d`. -/
def timeOf (d : Int) (h m : Nat) : Int := d * 1440 + ((h : Int) * 60 + m)

/-- The two candidate availability windows of day `d`:
`morning_slots + afternoon_slots` = [04:30-08:00, 15:45-21:30]. -/
def dailySlots (d : Int) : List (Int × Int) :=
  [(timeOf d 4 30, timeOf d 8 0), (timeOf d 15 45, timeOf d 21 30)]

/-- One iteration of the event loop inside `get_free_time`: a malformed
event (either bound absent) is skipped, otherwise
`daily_slots = [slot for slot in daily_slots if not (slot[0] < end and start < slot[1])]`. -/
def applyEvent (slots : List (Int × Int)) (e : GEvent) : List (Int × Int) :=
  match e.start, e.stop with
  | some s, some t => slots.filter (fun slot => !(decide (slot.1 < t) && decide (s < slot.2)))
  | _, _ => slots

/-- `get_free_time(events)`: for each of the 7 consecutive days starting
at day `d0`, run every event's blackout filter over that day's two
candidate windows. -/
def get_free_time (d0 : Int) (events : List GEvent) : List (List (Int × Int)) :=
  (List.range 7).map (fun i : Nat => events.foldl applyEvent (dailySlots (d0 + (i : Int))))

/-- A study session emitted by `add_event`: the index into `SUBJECTS`
and the session's half-open interval. -/
structure SessionRequest where
  subjectIndex : Nat
  start : Int
  stop : Int
deriving DecidableEq, Repr

/-- The two-session while loop
`while session_start + SESSION_DURATION <= end_time and subject_index < 2`,
with the remaining iteration allowance as fuel. -/
def fillLoop : Nat → Int → Int → Nat → List SessionRequest
  | 0, _, _, _ => []
  | n + 1, s, e, idx =>
    if s + SESSION_DURATION ≤ e then
      ⟨idx, s, s + SESSION_DURATION⟩ :: fillLoop n (s + SESSION_DURATION) e (idx + 1)
    else []

/-- The standard-afternoon `for subject_index in subjects_order` loop:
each listed subject is placed only when a 90-minute session still fits,
and the running start advances only on success.  Returns the emitted
sessions together with the final running start time. -/
def stdFillPos : List Nat → Int → Int → List SessionRequest × Int
  | [], s, _ => ([], s)
  | idx :: rest, s, e =>
    if s + SESSION_DURATION ≤ e then
      (⟨idx, s, s + SESSION_DURATION⟩ :: (stdFillPos rest (s + SESSION_DURATION) e).1,
       (stdFillPos rest (s + SESSION_DURATION) e).2)
    else stdFillPos rest s e

/-- The standard afternoon branch: subjects 0,1,2 at 90 minutes each,
then `SUBJECTS[3]` at 60 minutes when it still fits. -/
def afternoonStandard (s e : Int) : List SessionRequest :=
  if (stdFillPos [0, 1, 2] s e).2 + DATA_MANAGEMENT_DURATION ≤ e then
    (stdFillPos [0, 1, 2] s e).1 ++
      [⟨3, (stdFillPos [0, 1, 2] s e).2,
          (stdFillPos [0, 1, 2] s e).2 + DATA_MANAGEMENT_DURATION⟩]
  else (stdFillPos [0, 1, 2] s e).1

/-- `start_time.replace(hour=16, minute=45)`: same day, fixed clock time. -/
def anchorThuFri (s : Int) : Int := (s / 1440) * 1440 + (16 * 60 + 45)

/-- The first per-day pass of `schedule_study_sessions`: a slot is treated
as the morning window when `start_time.hour == 4 and start_time.minute == 30`. -/
def morningPass (slot : Int × Int) : List SessionRequest :=
  if slot.1 % 1440 = 4 * 60 + 30 then fillLoop 2 slot.1 slot.2 0 else []

/-- The second per-day pass: a slot is treated as the afternoon window when
`start_time.hour == 15 and start_time.minute == 45`; weekdays 3 and 4
(Thursday, Friday) take the 16:45-anchored two-session branch, all other
weekdays the standard 3 + 1 branch. -/
def afternoonPass (wd : Int) (slot : Int × Int) : List SessionRequest :=
  if slot.1 % 1440 = 15 * 60 + 45 then
    if ¬(wd = 3 ∨ wd = 4) then afternoonStandard slot.1 slot.2
    else fillLoop 2 (anchorThuFri slot.1) slot.2 0
  else []

/-- One day of `schedule_study_sessions`: the morning pass over all of the
day's slots, then the afternoon pass over all of them. -/
def allocDay (wd : Int) (slots : List (Int × Int)) : List SessionRequest :=
  slots.flatMap morningPass ++ slots.flatMap (afternoonPass wd)

/-- `today.weekday()` for day number `d` (0 = Monday by our convention). -/
def weekday (d : Int) : Int := d % 7

/-- `schedule_study_sessions`: compute the free slots for the 7 days
starting at `d0` and fill each day, emitting sessions in program order. -/
def schedule_study_sessions (d0 : Int) (events : List GEvent) : List SessionRequest :=
  (List.range 7).flatMap
    (fun i : Nat => allocDay (weekday (d0 + (i : Int))) ((get_free_time d0 events).getD i []))

/-! ### Helper lemmas about the free-time calculator -/

lemma foldl_applyEvent_sublist (events : List GEvent) (init : List (Int × Int)) :
    (events.foldl applyEvent init).Sublist init := by
  induction events generalizing init with
  | nil => simp
  | cons e rest ih =>
    refine (ih (applyEvent init e)).trans ?_
    obtain ⟨a, b⟩ := e
    cases a <;> cases b <;> simp [applyEvent, List.filter_sublist]

lemma applyEvent_eq_filter (init : List (Int × Int)) (e : GEvent) (s t : Int)
    (hs : e.start = some s) (ht : e.stop = some t) :
    applyEvent init e =
      init.filter (fun slot => !(decide (slot.1 < t) && decide (s < slot.2))) := by
  unfold applyEvent
  rw [hs, ht]

lemma applyEvent_skip (init : List (Int × Int)) (e : GEvent)
    (h : e.start = none ∨ e.stop = none) : applyEvent init e = init := by
  obtain ⟨a, b⟩ := e
  cases a <;> cases b <;> simp_all [applyEvent]

lemma not_mem_foldl_of_overlap (events : List GEvent) (init : List (Int × Int))
    (e : GEvent) (he : e ∈ events) (s t : Int)
    (hs : e.start = some s) (ht : e.stop = some t)
    (x : Int × Int) (h1 : x.1 < t) (h2 : s < x.2) :
    x ∉ events.foldl applyEvent init := by
  induction events generalizing init with
  | nil => cases he
  | cons e0 rest ih =>
    rcases List.mem_cons.mp he with rfl | he0
    · intro hx
      rw [List.foldl_cons] at hx
      have hx0 : x ∈ applyEvent init e :=
        (foldl_applyEvent_sublist rest (applyEvent init e)).subset hx
      rw [applyEvent_eq_filter init e s t hs ht] at hx0
      have hp := (List.mem_filter.mp hx0).2
      simp [h1, h2] at hp
    · intro hx
      rw [List.foldl_cons] at hx
      exact ih (applyEvent init e0) he0 hx

lemma free_getD (d0 : Int) (events : List GEvent) (i : Nat) (hi : i < 7) :
    (get_free_time d0 events).getD i [] =
      events.foldl applyEvent (dailySlots (d0 + (i : Int))) := by
  unfold get_free_time
  rw [List.getD_eq_getElem?_getD, List.getElem?_map, List.getElem?_range hi]
  rfl

lemma mem_dailySlots (d : Int) (sl : Int × Int) :
    sl ∈ dailySlots d ↔
      sl = (d * 1440 + 270, d * 1440 + 480) ∨ sl = (d * 1440 + 945, d * 1440 + 1290) := by
  norm_num [dailySlots, timeOf]

/-! ### Helper lemmas about the allocator -/

lemma mem_fillLoop_bounds : ∀ (n : Nat) (s e : Int) (idx : Nat) (r : SessionRequest),
    r ∈ fillLoop n s e idx → s ≤ r.start ∧ r.stop ≤ e := by
  intro n
  induction n with
  | zero => intro s e idx r hr; simp [fillLoop] at hr
  | succ n ih =>
    intro s e idx r hr
    rw [fillLoop] at hr
    split at hr
    next h =>
      rcases List.mem_cons.mp hr with rfl | hr2
      · exact ⟨le_refl _, h⟩
      · obtain ⟨hb1, hb2⟩ := ih _ _ _ _ hr2
        have hd : SESSION_DURATION = 90 := rfl
        exact ⟨by omega, hb2⟩
    next h => simp at hr

lemma stdFillPos_pos_le : ∀ (l : List Nat) (s e : Int), s ≤ (stdFillPos l s e).2 := by
  intro l
  induction l with
  | nil => intro s e; exact le_refl _
  | cons idx rest ih =>
    intro s e
    simp only [stdFillPos]
    split
    next h =>
      have hd : SESSION_DURATION = 90 := rfl
      have hrest := ih (s + SESSION_DURATION) e
      dsimp only
      omega
    next h => exact ih s e

lemma mem_stdFillPos_bounds : ∀ (l : List Nat) (s e : Int) (r : SessionRequest),
    r ∈ (stdFillPos l s e).1 → s ≤ r.start ∧ r.stop ≤ e := by
  intro l
  induction l with
  | nil => intro s e r hr; simp [stdFillPos] at hr
  | cons idx rest ih =>
    intro s e r hr
    simp only [stdFillPos] at hr
    split at hr
    next h =>
      dsimp only at hr
      rcases List.mem_cons.mp hr with rfl | hr2
      · exact ⟨le_refl _, h⟩
      · obtain ⟨hb1, hb2⟩ := ih _ _ _ hr2
        have hd : SESSION_DURATION = 90 := rfl
        exact ⟨by omega, hb2⟩
    next h => exact ih _ _ _ hr

lemma mem_afternoonStandard_bounds (s e : Int) (r : SessionRequest)
    (hr : r ∈ afternoonStandard s e) : s ≤ r.start ∧ r.stop ≤ e := by
  unfold afternoonStandard at hr
  split at hr
  next h =>
    rcases List.mem_append.mp hr with h1 | h1
    · exact mem_stdFillPos_bounds _ _ _ _ h1
    · have hpos := stdFillPos_pos_le [0, 1, 2] s e
      simp only [List.mem_singleton] at h1
      subst h1
      exact ⟨hpos, h⟩
  next h => exact mem_stdFillPos_bounds _ _ _ _ hr

lemma anchorThuFri_eq (s : Int) (h : s % 1440 = 15 * 60 + 45) :
    anchorThuFri s = s + 60 := by
  unfold anchorThuFri
  omega

lemma mem_morningPass_bounds (slot : Int × Int) (r : SessionRequest)
    (hr : r ∈ morningPass slot) : slot.1 ≤ r.start ∧ r.stop ≤ slot.2 := by
  unfold morningPass at hr
  split at hr
  · exact mem_fillLoop_bounds _ _ _ _ _ hr
  · simp at hr

lemma mem_afternoonPass_bounds (wd : Int) (slot : Int × Int) (r : SessionRequest)
    (hr : r ∈ afternoonPass wd slot) : slot.1 ≤ r.start ∧ r.stop ≤ slot.2 := by
  unfold afternoonPass at hr
  split at hr
  next h945 =>
    split at hr
    · exact mem_afternoonStandard_bounds _ _ _ hr
    · obtain ⟨hb1, hb2⟩ := mem_fillLoop_bounds _ _ _ _ _ hr
      rw [anchorThuFri_eq slot.1 h945] at hb1
      exact ⟨by omega, hb2⟩
  next h945 => simp at hr

lemma mem_allocDay (wd : Int) (slots : List (Int × Int)) (r : SessionRequest)
    (hr : r ∈ allocDay wd slots) : ∃ sl ∈ slots, sl.1 ≤ r.start ∧ r.stop ≤ sl.2 := by
  unfold allocDay at hr
  rcases List.mem_append.mp hr with h | h <;>
    rcases List.mem_flatMap.mp h with ⟨sl, hsl, hr2⟩
  · exact ⟨sl, hsl, mem_morningPass_bounds _ _ hr2⟩
  · exact ⟨sl, hsl, mem_afternoonPass_bounds _ _ _ hr2⟩

lemma mem_free_cases (d0 : Int) (events : List GEvent) (i : Nat) (hi : i < 7)
    (sl : Int × Int) (hsl : sl ∈ (get_free_time d0 events).getD i []) :
    sl = ((d0 + (i : Int)) * 1440 + 270, (d0 + (i : Int)) * 1440 + 480) ∨
    sl = ((d0 + (i : Int)) * 1440 + 945, (d0 + (i : Int)) * 1440 + 1290) := by
  rw [free_getD d0 events i hi] at hsl
  exact (mem_dailySlots _ _).mp ((foldl_applyEvent_sublist _ _).subset hsl)

lemma fillLoop_two_full (s e : Int) (h : s + 180 ≤ e) :
    fillLoop 2 s e 0 = [⟨0, s, s + 90⟩, ⟨1, s + 90, s + 180⟩] := by
  have hd : SESSION_DURATION = 90 := rfl
  simp only [fillLoop]
  rw [if_pos (by omega), if_pos (by omega)]
  simp only [SessionRequest.mk.injEq, List.cons.injEq, and_true, List.nil_eq, hd]
  refine ⟨trivial, trivial, trivial, ?_⟩
  omega

lemma stdFillPos_three_full (s e : Int) (h : s + 270 ≤ e) :
    stdFillPos [0, 1, 2] s e =
      ([⟨0, s, s + 90⟩, ⟨1, s + 90, s + 180⟩, ⟨2, s + 180, s + 270⟩], s + 270) := by
  have hd : SESSION_DURATION = 90 := rfl
  simp only [stdFillPos]
  split_ifs with h1 h2 h3 <;>
    simp_all [Prod.ext_iff, SessionRequest.mk.injEq] <;> omega

lemma afternoonStandard_full (s e : Int) (h : s + 330 ≤ e) :
    afternoonStandard s e =
      [⟨0, s, s + 90⟩, ⟨1, s + 90, s + 180⟩,
       ⟨2, s + 180, s + 270⟩, ⟨3, s + 270, s + 330⟩] := by
  have hd2 : DATA_MANAGEMENT_DURATION = 60 := rfl
  unfold afternoonStandard
  rw [stdFillPos_three_full s e (by omega)]
  rw [if_pos (show (([⟨0, s, s + 90⟩, ⟨1, s + 90, s + 180⟩, ⟨2, s + 180, s + 270⟩],
        s + 270) : List SessionRequest × Int).2 + DATA_MANAGEMENT_DURATION ≤ e by
      dsimp only
      omega)]
  simp only [SessionRequest.mk.injEq, List.cons.injEq, and_true, hd2]
  norm_num
  omega

lemma dailySlots_eq (d : Int) :
    dailySlots d = [(d * 1440 + 270, d * 1440 + 480), (d * 1440 + 945, d * 1440 + 1290)] := by
  norm_num [dailySlots, timeOf]

lemma morningPass_full (d : Int) :
    morningPass (d * 1440 + 270, d * 1440 + 480) =
      [⟨0, d * 1440 + 270, d * 1440 + 360⟩, ⟨1, d * 1440 + 360, d * 1440 + 450⟩] := by
  unfold morningPass
  rw [if_pos (by dsimp only; omega)]
  dsimp only
  rw [fillLoop_two_full _ _ (by omega)]
  simp [SessionRequest.mk.injEq] <;> omega

lemma morningPass_afternoon_none (d : Int) :
    morningPass (d * 1440 + 945, d * 1440 + 1290) = [] := by
  unfold morningPass
  rw [if_neg (by dsimp only; omega)]

lemma afternoonPass_morning_none (wd d : Int) :
    afternoonPass wd (d * 1440 + 270, d * 1440 + 480) = [] := by
  unfold afternoonPass
  rw [if_neg (by dsimp only; omega)]

lemma afternoonPass_std_full (wd d : Int) (h3 : wd ≠ 3) (h4 : wd ≠ 4) :
    afternoonPass wd (d * 1440 + 945, d * 1440 + 1290) =
      [⟨0, d * 1440 + 945, d * 1440 + 1035⟩, ⟨1, d * 1440 + 1035, d * 1440 + 1125⟩,
       ⟨2, d * 1440 + 1125, d * 1440 + 1215⟩, ⟨3, d * 1440 + 1215, d * 1440 + 1275⟩] := by
  unfold afternoonPass
  rw [if_pos (by dsimp only; omega), if_pos (not_or.mpr ⟨h3, h4⟩)]
  dsimp only
  rw [afternoonStandard_full _ _ (by omega)]
  simp [SessionRequest.mk.injEq] <;> omega

lemma afternoonPass_thufri_full (wd d : Int) (hwd : wd = 3 ∨ wd = 4) :
    afternoonPass wd (d * 1440 + 945, d * 1440 + 1290) =
      [⟨0, d * 1440 + 1005, d * 1440 + 1095⟩, ⟨1, d * 1440 + 1095, d * 1440 + 1185⟩] := by
  unfold afternoonPass
  rw [if_pos (by dsimp only; omega), if_neg (not_not_intro hwd)]
  dsimp only
  have hanch : anchorThuFri (d * 1440 + 945) = d * 1440 + 1005 := by
    unfold anchorThuFri
    omega
  rw [hanch, fillLoop_two_full _ _ (by omega)]
  simp [SessionRequest.mk.injEq] <;> omega

/-! ### Claim theorems -/

/-- Claim C1: every session emitted by the allocator lies entirely within
some free interval in that day's computed free-slot list, and that free
interval has no open-interval overlap with any well-formed busy interval
of the input event list. -/
theorem sessions_lie_in_conflict_free_intervals
    (d0 : Int) (events : List GEvent) (r : SessionRequest)
    (hr : r ∈ schedule_study_sessions d0 events) :
    ∃ i : Nat, i < 7 ∧ ∃ fs fe : Int,
      (fs, fe) ∈ (get_free_time d0 events).getD i [] ∧
      fs ≤ r.start ∧ r.stop ≤ fe ∧
      ∀ e ∈ events, ∀ s t : Int, e.start = some s → e.stop = some t →
        ¬(fs < t ∧ s < fe) := by
  unfold schedule_study_sessions at hr
  rcases List.mem_flatMap.mp hr with ⟨i, hi, hr2⟩
  have hi7 : i < 7 := List.mem_range.mp hi
  rcases mem_allocDay _ _ _ hr2 with ⟨sl, hsl, hb1, hb2⟩
  refine ⟨i, hi7, sl.1, sl.2, ?_, hb1, hb2, ?_⟩
  · simpa using hsl
  · intro e he s t hs ht hcon
    have hfree := hsl
    rw [free_getD d0 events i hi7] at hfree
    exact not_mem_foldl_of_overlap events _ e he s t hs ht sl hcon.1 hcon.2 hfree

/-- Witness for C1: with a busy interval 05:00-06:00 on day 0, the session
(subject 0, 15:45-17:15 of day 0) is emitted and the conclusion holds. -/
theorem sessions_lie_in_conflict_free_intervals_witness :
    (⟨0, 945, 1035⟩ : SessionRequest) ∈ schedule_study_sessions 0 [⟨some 300, some 360⟩] ∧
    (∃ i : Nat, i < 7 ∧ ∃ fs fe : Int,
      (fs, fe) ∈ (get_free_time 0 [⟨some 300, some 360⟩]).getD i [] ∧
      fs ≤ (⟨0, 945, 1035⟩ : SessionRequest).start ∧
      (⟨0, 945, 1035⟩ : SessionRequest).stop ≤ fe ∧
      ∀ e ∈ [(⟨some 300, some 360⟩ : GEvent)], ∀ s t : Int,
        e.start = some s → e.stop = some t → ¬(fs < t ∧ s < fe)) :=
  ⟨by decide,
   sessions_lie_in_conflict_free_intervals 0 [⟨some 300, some 360⟩] ⟨0, 945, 1035⟩ (by decide)⟩

/-- Claim C2: if a well-formed busy interval overlaps a candidate window
under the open-interval test, that day's output contains neither the
window itself nor any nonempty interval contained in it (the window is
blacked out whole, never split into a remainder). -/
theorem blackout_removes_whole_window
    (d0 : Int) (events : List GEvent) (i : Nat) (hi : i < 7)
    (w : Int × Int) (hw : w ∈ dailySlots (d0 + (i : Int)))
    (e : GEvent) (he : e ∈ events) (s t : Int)
    (hs : e.start = some s) (ht : e.stop = some t)
    (h1 : w.1 < t) (h2 : s < w.2) :
    w ∉ (get_free_time d0 events).getD i [] ∧
    ∀ u ∈ (get_free_time d0 events).getD i [],
      ¬(w.1 ≤ u.1 ∧ u.1 < u.2 ∧ u.2 ≤ w.2) := by
  have hnot : w ∉ (get_free_time d0 events).getD i [] := by
    rw [free_getD d0 events i hi]
    exact not_mem_foldl_of_overlap events _ e he s t hs ht w h1 h2
  refine ⟨hnot, ?_⟩
  intro u hu hcon
  have hu0 := mem_free_cases d0 events i hi u hu
  have hw0 := (mem_dailySlots _ _).mp hw
  rcases hu0 with hu1 | hu1 <;> rcases hw0 with hw1 | hw1
  · exact hnot (by rw [hw1, ← hu1]; exact hu)
  · obtain ⟨c1, c2, c3⟩ := hcon
    rw [hu1, hw1] at c1 c3
    dsimp only at c1 c3
    omega
  · obtain ⟨c1, c2, c3⟩ := hcon
    rw [hu1, hw1] at c1 c3
    dsimp only at c1 c3
    omega
  · exact hnot (by rw [hw1, ← hu1]; exact hu)

/-- Witness for C2: busy 05:00-06:00 on day 0 blacks out the whole morning
window of day 0. -/
theorem blackout_removes_whole_window_witness :
    ((270 : Int), (480 : Int)) ∉ (get_free_time 0 [⟨some 300, some 360⟩]).getD 0 [] ∧
    ∀ u ∈ (get_free_time 0 [⟨some 300, some 360⟩]).getD 0 [],
      ¬(((270 : Int), (480 : Int)).1 ≤ u.1 ∧ u.1 < u.2 ∧ u.2 ≤ ((270 : Int), (480 : Int)).2) :=
  blackout_removes_whole_window 0 [⟨some 300, some 360⟩] 0 (by decide)
    (270, 480) (by decide) ⟨some 300, some 360⟩ (by decide) 300 360 rfl rfl
    (by decide) (by decide)

/-- Claim C3, counterexample: on a Tuesday (day number 1) with an empty busy
list, the trailing 60-minute session for subject index 3 IS placed, at
20:15-21:15 of that day (minutes 2655-2715, within the window ending at
minute 2730 = 21:30), and the afternoon window yields four sessions, not
three: three 90-minute sessions end at 20:15, not 21:15, so the 60-minute
block still fits. -/
theorem tuesday_afternoon_fourth_session_placed :
    (⟨3, 2655, 2715⟩ : SessionRequest) ∈ schedule_study_sessions 1 [] ∧
    ((schedule_study_sessions 1 []).filter
        (fun r => decide (2385 ≤ r.start) && decide (r.stop ≤ 2730))).length = 4 := by
  decide

/-- Claim C3 as amended: with an empty busy list, on a Tuesday the day
yields the morning fill plus FOUR afternoon sessions: three 90-minute
sessions for subjects 0,1,2 from 15:45 to 20:15 and the 60-minute session
for subject 3 at 20:15-21:15, which fits because 21:15 <= 21:30. -/
theorem tuesday_afternoon_four_sessions (d0 : Int) (hT : weekday d0 = 1) :
    allocDay (weekday d0) ((get_free_time d0 []).getD 0 []) =
      [⟨0, d0 * 1440 + 270, d0 * 1440 + 360⟩,
       ⟨1, d0 * 1440 + 360, d0 * 1440 + 450⟩,
       ⟨0, d0 * 1440 + 945, d0 * 1440 + 1035⟩,
       ⟨1, d0 * 1440 + 1035, d0 * 1440 + 1125⟩,
       ⟨2, d0 * 1440 + 1125, d0 * 1440 + 1215⟩,
       ⟨3, d0 * 1440 + 1215, d0 * 1440 + 1275⟩] := by
  have hfree : (get_free_time d0 []).getD 0 [] = dailySlots (d0 + ((0 : Nat) : Int)) := by
    rw [free_getD d0 [] 0 (by norm_num)]
    rfl
  rw [hfree, show d0 + ((0 : Nat) : Int) = d0 by norm_num, dailySlots_eq]
  unfold allocDay
  simp only [List.flatMap_cons, List.flatMap_nil]
  rw [morningPass_full, morningPass_afternoon_none, afternoonPass_morning_none,
      afternoonPass_std_full _ _ (by rw [hT]; decide) (by rw [hT]; decide)]
  simp

/-- Witness for the amended C3 at day number 1 (a Tuesday). -/
theorem tuesday_afternoon_four_sessions_witness :
    weekday 1 = 1 ∧
    allocDay (weekday 1) ((get_free_time 1 []).getD 0 []) =
      [⟨0, 1710, 1800⟩, ⟨1, 1800, 1890⟩,
       ⟨0, 2385, 2475⟩, ⟨1, 2475, 2565⟩, ⟨2, 2565, 2655⟩, ⟨3, 2655, 2715⟩] :=
  ⟨by decide, tuesday_afternoon_four_sessions 1 (by decide)⟩

/-- Claim C4: on a non-Thursday/Friday day, the surviving afternoon free
interval is filled back-to-back from its start with 90-minute sessions for
subjects 0, 1, 2, each ending no later than the window end, and the
60-minute session for subject 3 is placed if and only if all three
90-minute sessions were placed and the 60-minute block ends no later than
the window end. -/
theorem standard_afternoon_fill
    (d0 : Int) (events : List GEvent) (i : Nat) (hi : i < 7)
    (sl : Int × Int) (hsl : sl ∈ (get_free_time d0 events).getD i [])
    (ha : sl.1 % 1440 = 15 * 60 + 45)
    (h3 : weekday (d0 + (i : Int)) ≠ 3) (h4 : weekday (d0 + (i : Int)) ≠ 4) :
    afternoonPass (weekday (d0 + (i : Int))) sl =
      [⟨0, sl.1, sl.1 + 90⟩, ⟨1, sl.1 + 90, sl.1 + 180⟩,
       ⟨2, sl.1 + 180, sl.1 + 270⟩, ⟨3, sl.1 + 270, sl.1 + 330⟩] ∧
    sl.1 + 330 ≤ sl.2 ∧
    ((⟨3, sl.1 + 270, sl.1 + 330⟩ : SessionRequest)
        ∈ afternoonPass (weekday (d0 + (i : Int))) sl ↔
      ((⟨0, sl.1, sl.1 + 90⟩ : SessionRequest)
          ∈ afternoonPass (weekday (d0 + (i : Int))) sl ∧
       (⟨1, sl.1 + 90, sl.1 + 180⟩ : SessionRequest)
          ∈ afternoonPass (weekday (d0 + (i : Int))) sl ∧
       (⟨2, sl.1 + 180, sl.1 + 270⟩ : SessionRequest)
          ∈ afternoonPass (weekday (d0 + (i : Int))) sl) ∧
      sl.1 + 330 ≤ sl.2) := by
  have hcases := mem_free_cases d0 events i hi sl hsl
  have hsl_eq : sl = ((d0 + (i : Int)) * 1440 + 945, (d0 + (i : Int)) * 1440 + 1290) := by
    rcases hcases with h | h
    · exfalso
      rw [h] at ha
      dsimp only at ha
      omega
    · exact h
  subst hsl_eq
  dsimp only at ha ⊢
  have hfill := afternoonPass_std_full (weekday (d0 + (i : Int))) (d0 + (i : Int)) h3 h4
  rw [hfill]
  refine ⟨?_, by omega, ?_⟩
  · simp [SessionRequest.mk.injEq]
    omega
  · simp only [List.mem_cons, List.not_mem_nil, or_false, SessionRequest.mk.injEq,
      true_and, and_true]
    omega

/-- Witness for C4 on day 0 (a Monday) with an empty busy list. -/
theorem standard_afternoon_fill_witness :
    afternoonPass 0 ((945 : Int), (1290 : Int)) =
      [⟨0, 945, 1035⟩, ⟨1, 1035, 1125⟩, ⟨2, 1125, 1215⟩, ⟨3, 1215, 1275⟩] ∧
    (945 : Int) + 330 ≤ 1290 ∧
    ((⟨3, 1215, 1275⟩ : SessionRequest) ∈ afternoonPass 0 ((945 : Int), (1290 : Int)) ↔
      ((⟨0, 945, 1035⟩ : SessionRequest) ∈ afternoonPass 0 ((945 : Int), (1290 : Int)) ∧
       (⟨1, 1035, 1125⟩ : SessionRequest) ∈ afternoonPass 0 ((945 : Int), (1290 : Int)) ∧
       (⟨2, 1125, 1215⟩ : SessionRequest) ∈ afternoonPass 0 ((945 : Int), (1290 : Int))) ∧
      (945 : Int) + 330 ≤ 1290) :=
  standard_afternoon_fill 0 [] 0 (by decide) (945, 1290) (by decide) (by decide)
    (by decide) (by decide)

/-- Claim C5: the surviving morning free interval is exactly the full
morning window 04:30-08:00, and the allocator fills it back-to-back from
its start with 90-minute sessions for subjects 0 then 1 and nothing more
(it stops once two sessions are placed, and a third would also overrun
the window end). -/
theorem morning_fill
    (d0 : Int) (events : List GEvent) (i : Nat) (hi : i < 7)
    (sl : Int × Int) (hsl : sl ∈ (get_free_time d0 events).getD i [])
    (hm : sl.1 % 1440 = 4 * 60 + 30) :
    sl = ((d0 + (i : Int)) * 1440 + 270, (d0 + (i : Int)) * 1440 + 480) ∧
    morningPass sl = [⟨0, sl.1, sl.1 + 90⟩, ⟨1, sl.1 + 90, sl.1 + 180⟩] ∧
    ¬(sl.1 + 180 + 90 ≤ sl.2) := by
  have hcases := mem_free_cases d0 events i hi sl hsl
  have hsl_eq : sl = ((d0 + (i : Int)) * 1440 + 270, (d0 + (i : Int)) * 1440 + 480) := by
    rcases hcases with h | h
    · exact h
    · exfalso
      rw [h] at hm
      dsimp only at hm
      omega
  subst hsl_eq
  dsimp only
  refine ⟨rfl, ?_, by omega⟩
  rw [morningPass_full]
  simp [SessionRequest.mk.injEq] <;> omega

/-- Witness for C5 on day 0 with an empty busy list: sessions 04:30-06:00
and 06:00-07:30. -/
theorem morning_fill_witness :
    ((270 : Int), (480 : Int)) = (270, 480) ∧
    morningPass ((270 : Int), (480 : Int)) = [⟨0, 270, 360⟩, ⟨1, 360, 450⟩] ∧
    ¬((270 : Int) + 180 + 90 ≤ 480) :=
  morning_fill 0 [] 0 (by decide) (270, 480) (by decide) (by decide)

/-- Claim C6: on a Thursday or Friday, the afternoon fill is anchored at
the fixed clock time 16:45 (60 minutes after the window's 15:45 start),
independent of the interval's start (the anchor depends only on the day
number), and exactly two 90-minute sessions for subjects 0 and 1 are
placed: 16:45-18:15 and 18:15-19:45, nothing more. -/
theorem thursday_friday_afternoon_fill
    (d0 : Int) (events : List GEvent) (i : Nat) (hi : i < 7)
    (sl : Int × Int) (hsl : sl ∈ (get_free_time d0 events).getD i [])
    (ha : sl.1 % 1440 = 15 * 60 + 45)
    (hwd : weekday (d0 + (i : Int)) = 3 ∨ weekday (d0 + (i : Int)) = 4) :
    afternoonPass (weekday (d0 + (i : Int))) sl =
      [⟨0, sl.1 + 60, sl.1 + 150⟩, ⟨1, sl.1 + 150, sl.1 + 240⟩] ∧
    anchorThuFri sl.1 = sl.1 + 60 ∧
    (sl.1 + 60) % 1440 = 16 * 60 + 45 ∧
    ∀ s2 : Int, s2 / 1440 = sl.1 / 1440 → anchorThuFri s2 = anchorThuFri sl.1 := by
  have hcases := mem_free_cases d0 events i hi sl hsl
  have hsl_eq : sl = ((d0 + (i : Int)) * 1440 + 945, (d0 + (i : Int)) * 1440 + 1290) := by
    rcases hcases with h | h
    · exfalso
      rw [h] at ha
      dsimp only at ha
      omega
    · exact h
  subst hsl_eq
  dsimp only at ha ⊢
  refine ⟨?_, anchorThuFri_eq _ ha, by omega, ?_⟩
  · rw [afternoonPass_thufri_full _ _ hwd]
    simp [SessionRequest.mk.injEq] <;> omega
  · intro s2 h2
    unfold anchorThuFri
    rw [h2]

/-- Witness for C6 on day 3 (a Thursday) with an empty busy list: sessions
16:45-18:15 and 18:15-19:45 of that day (minutes 5325-5415, 5415-5505). -/
theorem thursday_friday_afternoon_fill_witness :
    afternoonPass 3 ((5265 : Int), (5610 : Int)) =
      [⟨0, 5325, 5415⟩, ⟨1, 5415, 5505⟩] ∧
    anchorThuFri 5265 = 5325 ∧
    (5325 : Int) % 1440 = 16 * 60 + 45 ∧
    ∀ s2 : Int, s2 / 1440 = (5265 : Int) / 1440 → anchorThuFri s2 = anchorThuFri 5265 :=
  thursday_friday_afternoon_fill 3 [] 0 (by decide) (5265, 5610) (by decide)
    (by decide) (by decide)

/-- Claim C7: with an empty busy list the calculator returns, for each of
the 7 consecutive days starting at day `d0`, exactly the two configured
windows unchanged: morning 04:30-08:00 and afternoon 15:45-21:30,
re-anchored to that day's date. -/
theorem empty_busy_list_windows_survive (d0 : Int) :
    (get_free_time d0 []).length = 7 ∧
    ∀ i : Nat, i < 7 →
      (get_free_time d0 []).getD i [] =
        [((d0 + (i : Int)) * 1440 + 270, (d0 + (i : Int)) * 1440 + 480),
         ((d0 + (i : Int)) * 1440 + 945, (d0 + (i : Int)) * 1440 + 1290)] := by
  constructor
  · simp [get_free_time]
  · intro i hi
    rw [free_getD d0 [] i hi]
    exact dailySlots_eq _

/-- Witness for C7 at day 0, day index 3. -/
theorem empty_busy_list_windows_survive_witness :
    (get_free_time 0 []).length = 7 ∧
    (get_free_time 0 []).getD 3 [] = [(4590, 4800), (5265, 5610)] :=
  ⟨(empty_busy_list_windows_survive 0).1,
   (empty_busy_list_windows_survive 0).2 3 (by decide)⟩

/-- Claim C8: an event whose start/end fields are absent is skipped and
contributes no blackout: the computed free intervals equal those computed
with that event removed from the input list. -/
theorem malformed_event_skipped (d0 : Int) (pre post : List GEvent) (e : GEvent)
    (hs : e.start = none) (ht : e.stop = none) :
    get_free_time d0 (pre ++ e :: post) = get_free_time d0 (pre ++ post) := by
  unfold get_free_time
  congr 1
  funext i
  rw [List.foldl_append, List.foldl_append, List.foldl_cons,
      applyEvent_skip _ e (Or.inl hs)]

/-- Witness for C8: a single malformed event is equivalent to no events. -/
theorem malformed_event_skipped_witness :
    get_free_time 0 ([] ++ (⟨none, none⟩ : GEvent) :: []) = get_free_time 0 ([] ++ []) :=
  malformed_event_skipped 0 [] [] ⟨none, none⟩ rfl rfl

/-- Claim C9: the calculator is deterministic: for a fixed reference day
and a fixed event list, any two runs produce identical free-interval
lists. -/
theorem calculator_deterministic (d0 : Int) (events : List GEvent)
    (out1 out2 : List (List (Int × Int)))
    (h1 : out1 = get_free_time d0 events) (h2 : out2 = get_free_time d0 events) :
    out1 = out2 :=
  h1.trans h2.symm

/-- Witness for C9: two runs on day 0 with busy 05:00-06:00 agree, and the
common value is the concrete 7-day list with day 0's morning blacked out. -/
theorem calculator_deterministic_witness :
    get_free_time 0 [⟨some 300, some 360⟩] =
      [[(945, 1290)], [(1710, 1920), (2385, 2730)], [(3150, 3360), (3825, 4170)],
       [(4590, 4800), (5265, 5610)], [(6030, 6240), (6705, 7050)],
       [(7470, 7680), (8145, 8490)], [(8910, 9120), (9585, 9930)]] :=
  calculator_deterministic 0 [⟨some 300, some 360⟩] _ _ rfl (by decide)

/-- Claim C10: shape invariant of the calculator's output: exactly 7
per-day lists, each with at most 2 intervals, and every interval is
exactly one of the two full configured windows for its day (never a
proper sub-interval) and satisfies start < end. -/
theorem free_time_shape_invariant (d0 : Int) (events : List GEvent) :
    (get_free_time d0 events).length = 7 ∧
    ∀ i : Nat, i < 7 →
      ((get_free_time d0 events).getD i []).length ≤ 2 ∧
      ∀ sl ∈ (get_free_time d0 events).getD i [],
        (sl = ((d0 + (i : Int)) * 1440 + 270, (d0 + (i : Int)) * 1440 + 480) ∨
         sl = ((d0 + (i : Int)) * 1440 + 945, (d0 + (i : Int)) * 1440 + 1290)) ∧
        sl.1 < sl.2 := by
  refine ⟨by simp [get_free_time], fun i hi => ⟨?_, fun sl hsl => ?_⟩⟩
  · rw [free_getD d0 events i hi]
    have hlen := (foldl_applyEvent_sublist events (dailySlots (d0 + (i : Int)))).length_le
    simpa [dailySlots] using hlen
  · have hc := mem_free_cases d0 events i hi sl hsl
    refine ⟨hc, ?_⟩
    rcases hc with rfl | rfl <;> (dsimp only; omega)

/-- Witness for C10 at day 0 with busy 05:00-06:00 (day 0 has one
surviving interval, the afternoon window). -/
theorem free_time_shape_invariant_witness :
    (get_free_time 0 [⟨some 300, some 360⟩]).length = 7 ∧
    ((get_free_time 0 [⟨some 300, some 360⟩]).getD 0 []).length ≤ 2 ∧
    ∀ sl ∈ (get_free_time 0 [⟨some 300, some 360⟩]).getD 0 [],
      (sl = (270, 480) ∨ sl = (945, 1290)) ∧ sl.1 < sl.2 :=
  ⟨(free_time_shape_invariant 0 [⟨some 300, some 360⟩]).1,
   ((free_time_shape_invariant 0 [⟨some 300, some 360⟩]).2 0 (by decide)).1,
   ((free_time_shape_invariant 0 [⟨some 300, some 360⟩]).2 0 (by decide)).2⟩
